import Mathlib

/-!
Verification of the order/cart consistency core of an e-commerce backend
(Node.js/TypeScript, Mongoose models).  The definitions below are a shallow
embedding of the relevant source functions; machine numbers are modelled as
`Int`/`Rat`, fallible paths as `Except`, and persisted state as explicit
record passing.
-/

/-- Error values thrown by the source code.  `appError` mirrors the
`AppError(message, statusCode)` class; `typeError` and `referenceError`
mirror the JavaScript runtime errors raised when the code dereferences
`undefined` or an undeclared variable. -/
inductive Err where
  | appError (msg : String) (code : Nat)
  | typeError (msg : String)
  | referenceError (msg : String)
  | validationError (msg : String)
  | genericError (msg : String)
deriving DecidableEq, Repr

/-- Product document: the fields touched by the inventory ledger
(`productModel`, src/unnamed/part_012).  `inStock` models
`availability === "in-stock"`. -/
structure Product where
  id : Nat
  stock : Int
  inStock : Bool
deriving DecidableEq, Repr

/-- `Product.findById` on a collection of products. -/
def findProduct (ps : List Product) (pid : Nat) : Option Product :=
  ps.find? (fun p => p.id = pid)

/-- Replace the product with id `pid` by `p` (a `findByIdAndUpdate` write). -/
def putProduct (ps : List Product) (pid : Nat) (p : Product) : List Product :=
  ps.map (fun q => if q.id = pid then p else q)

/-- `reserveStock` on a single product document, sequential semantics
(part_012 lines 547-571): throw `AppError("Not enough stock available", 400)`
when `stock < quantity`, otherwise `$inc stock by -quantity` and recompute
availability from the previously read stock. -/
def reserveStockP (p : Product) (qty : Nat) : Except Err Product :=
  if p.stock < (qty : Int) then
    .error (.appError "Not enough stock available" 400)
  else
    .ok { p with stock := p.stock - qty, inStock := decide (p.stock - qty > 0) }

/-- `releaseStock` on a single product document (part_012 lines 573-593):
unconditionally `$inc stock by quantity` and recompute availability from the
previously read stock. -/
def releaseStockP (p : Product) (qty : Nat) : Product :=
  { p with stock := p.stock + qty, inStock := decide (p.stock + qty > 0) }

/-- `reserveStock(productId, qty)` against the collection.  A missing product
returns `null` (no mutation, no throw); insufficient stock throws; otherwise
the decrement is written back. -/
def reserveStockL (ps : List Product) (pid : Nat) (qty : Nat) :
    Except Err (List Product) :=
  match findProduct ps pid with
  | none => .ok ps
  | some p =>
    match reserveStockP p qty with
    | .error e => .error e
    | .ok p2 => .ok (putProduct ps pid p2)

/-- `releaseStock(productId, qty)` against the collection.  A missing product
returns `null` (no mutation). -/
def releaseStockL (ps : List Product) (pid : Nat) (qty : Nat) : List Product :=
  match findProduct ps pid with
  | none => ps
  | some p => putProduct ps pid (releaseStockP p qty)

/-- `isProductAvailable(productId, quantity)` (part_012 lines 440-447):
`stock ≥ quantity && availability === "in-stock"`; a missing product gives
`undefined >= quantity`, i.e. false. -/
def isProductAvailableL (ps : List Product) (pid : Nat) (qty : Nat) : Bool :=
  match findProduct ps pid with
  | none => false
  | some p => decide ((qty : Int) ≤ p.stock) && p.inStock

/-! ### C3: sequential reserve/release runs on one product -/

/-- One ledger call in a sequence. -/
inductive StockOp where
  | reserve (qty : Nat)
  | release (qty : Nat)
deriving DecidableEq, Repr

/-- Accumulated outcome of a sequence of ledger calls on one product:
current document, total successfully reserved, total released. -/
structure StockRun where
  prod : Product
  reservedSum : Nat
  releasedSum : Nat
deriving Repr

/-- Execute one ledger call sequentially: a failed `reserveStock`
(insufficient stock) performs no mutation. -/
def stockStep (r : StockRun) : StockOp → StockRun
  | .reserve q =>
    match reserveStockP r.prod q with
    | .error _ => r
    | .ok p2 => { r with prod := p2, reservedSum := r.reservedSum + q }
  | .release q =>
    { r with prod := releaseStockP r.prod q, releasedSum := r.releasedSum + q }

/-- Execute a sequence of ledger calls starting from stock `init`. -/
def runStockOps (init : Nat) (ops : List StockOp) : StockRun :=
  ops.foldl stockStep { prod := ⟨0, (init : Int), init > 0⟩,
                        reservedSum := 0, releasedSum := 0 }

/-- Helper: the ledger balance equation and non-negativity are preserved by
every step. -/
theorem stockStep_invariant (r : StockRun) (op : StockOp) (init : Nat)
    (h : r.prod.stock = (init : Int) - r.reservedSum + r.releasedSum)
    (hnn : 0 ≤ r.prod.stock) :
    (stockStep r op).prod.stock =
      (init : Int) - (stockStep r op).reservedSum + (stockStep r op).releasedSum ∧
    0 ≤ (stockStep r op).prod.stock := by
  cases op with
  | reserve q =>
    by_cases hc : r.prod.stock < (q : Int)
    · simp only [stockStep, reserveStockP, if_pos hc]
      exact ⟨h, hnn⟩
    · push_neg at hc
      simp only [stockStep, reserveStockP, if_neg (not_lt.mpr hc)]
      constructor
      · simp only [h]; push_cast; ring
      · simpa using hc
  | release q =>
    constructor
    · simp only [stockStep, releaseStockP, h]; push_cast; ring
    · simp only [stockStep, releaseStockP]
      have hq : (0 : Int) ≤ (q : Int) := Int.natCast_nonneg q
      omega

/-- Helper: folding `stockStep` keeps the balance equation and
non-negativity. -/
theorem foldl_stockStep_invariant (init : Nat) (ops : List StockOp)
    (r0 : StockRun)
    (h : r0.prod.stock = (init : Int) - r0.reservedSum + r0.releasedSum ∧
      0 ≤ r0.prod.stock) :
    (ops.foldl stockStep r0).prod.stock =
      (init : Int) - (ops.foldl stockStep r0).reservedSum +
        (ops.foldl stockStep r0).releasedSum ∧
    0 ≤ (ops.foldl stockStep r0).prod.stock := by
  induction ops generalizing r0 with
  | nil => simpa using h
  | cons op rest ih =>
    have step := stockStep_invariant r0 op init h.1 h.2
    simpa using ih (stockStep r0 op) step

/-- Helper: the balance equation and non-negativity hold after any run. -/
theorem runStockOps_invariant (init : Nat) (ops : List StockOp) :
    (runStockOps init ops).prod.stock =
      (init : Int) - (runStockOps init ops).reservedSum +
        (runStockOps init ops).releasedSum ∧
    0 ≤ (runStockOps init ops).prod.stock := by
  unfold runStockOps
  exact foldl_stockStep_invariant init ops _ (by constructor <;> simp)

/-- C3: for every product and every sequence of reserveStock/releaseStock
calls (a reserveStock with stock < qty fails and performs no mutation), the
stock never goes negative, and the final stock equals
initialStock - sum of successfully reserved + sum of released. -/
theorem reserveRelease_stock_invariant (init : Nat) (ops : List StockOp) :
    (runStockOps init ops).prod.stock =
      (init : Int) - (runStockOps init ops).reservedSum +
        (runStockOps init ops).releasedSum ∧
    ∀ pre rest : List StockOp, ops = pre ++ rest →
      0 ≤ (runStockOps init pre).prod.stock := by
  refine ⟨(runStockOps_invariant init ops).1, ?_⟩
  intro pre rest _
  exact (runStockOps_invariant init pre).2

/-- Witness for C3: concrete run with initial stock 5, a successful
reservation of 3 and a release of 2; the intermediate state after the
reservation is non-negative. -/
theorem reserveRelease_stock_invariant_witness :
    0 ≤ (runStockOps 5 [StockOp.reserve 3]).prod.stock :=
  (reserveRelease_stock_invariant 5 [StockOp.reserve 3, StockOp.release 2]).2
    [StockOp.reserve 3] [StockOp.release 2] rfl

/-! ### C2: interleaving model of two concurrent reserveStock calls

`reserveStock` (part_012 lines 547-571) has two awaited database
operations: the `findById` read (followed synchronously by the
`stock < quantity` check and throw) and the separate `findByIdAndUpdate`
write performing an unconditional `$inc`.  Concurrent requests interleave
at these await points, so a two-call race is modelled by giving each call
a read step (read current stock, run the check against it) and a write
step (unconditionally decrement), scheduled in any order. -/

/-- Shared state while two reserveStock calls race on the same product:
the committed stock, the stock value each call captured with its read
(`none` until the read ran), whether each call failed its check, and
whether each call performed its write. -/
structure RaceState where
  stock : Int
  read1 : Option Int
  read2 : Option Int
  failed1 : Bool
  failed2 : Bool
  wrote1 : Bool
  wrote2 : Bool
deriving DecidableEq, Repr

/-- Call 1 executes its `findById` read plus the synchronous
`stock < quantity` check: on failure the call throws (no write will
follow); on success it captures the stock it saw. -/
def raceRead1 (q1 : Nat) (s : RaceState) : RaceState :=
  if s.stock < (q1 : Int) then { s with failed1 := true }
  else { s with read1 := some s.stock }

/-- Call 2 executes its read-and-check step. -/
def raceRead2 (q2 : Nat) (s : RaceState) : RaceState :=
  if s.stock < (q2 : Int) then { s with failed2 := true }
  else { s with read2 := some s.stock }

/-- Call 1 executes its `findByIdAndUpdate` write: an unconditional
`$inc: {stock: -quantity}` (only reached when its check passed). -/
def raceWrite1 (q1 : Nat) (s : RaceState) : RaceState :=
  match s.read1 with
  | none => s
  | some _ => { s with stock := s.stock - q1, wrote1 := true }

/-- Call 2 executes its unconditional decrement write. -/
def raceWrite2 (q2 : Nat) (s : RaceState) : RaceState :=
  match s.read2 with
  | none => s
  | some _ => { s with stock := s.stock - q2, wrote2 := true }

/-- Initial race state: stock 5, neither call has run. -/
def raceInit : RaceState :=
  { stock := 5, read1 := none, read2 := none,
    failed1 := false, failed2 := false, wrote1 := false, wrote2 := false }

/-- C2 failing input: two concurrent reserveStock calls of quantity 3 on a
product with stock 5 (3 + 3 > 5), scheduled read1, read2, write1, write2.
Because the precondition check is a separate read rather than part of an
atomic conditional update, both calls pass their check and both decrement:
a double-oversell leaving stock at -1, contradicting the claim that
exactly one call can succeed. -/
theorem reserveStock_race_double_oversell :
    (3 + 3 > 5) ∧
    (raceWrite2 3 (raceWrite1 3 (raceRead2 3 (raceRead1 3 raceInit)))).wrote1
      = true ∧
    (raceWrite2 3 (raceWrite1 3 (raceRead2 3 (raceRead1 3 raceInit)))).wrote2
      = true ∧
    (raceWrite2 3 (raceWrite1 3 (raceRead2 3 (raceRead1 3 raceInit)))).failed1
      = false ∧
    (raceWrite2 3 (raceWrite1 3 (raceRead2 3 (raceRead1 3 raceInit)))).failed2
      = false ∧
    (raceWrite2 3 (raceWrite1 3 (raceRead2 3 (raceRead1 3 raceInit)))).stock
      = -1 := by
  decide

/-! ### Order state machine (orderModel.ts) -/

/-- Current stock of the product with id `pid`, if present. -/
def stockOf (ps : List Product) (pid : Nat) : Option Int :=
  (findProduct ps pid).map Product.stock

/-- Helper: `find?` over a cons of products. -/
theorem findProduct_cons (x : Product) (rest : List Product) (pid : Nat) :
    findProduct (x :: rest) pid =
      if x.id = pid then some x else findProduct rest pid := by
  by_cases h : x.id = pid
  · simp [findProduct, List.find?_cons_of_pos, h]
  · simp [findProduct, List.find?_cons_of_neg, h]

/-- Helper: a found product carries the id it was looked up by. -/
theorem findProduct_id (ps : List Product) (pid : Nat) (p : Product)
    (h : findProduct ps pid = some p) : p.id = pid := by
  unfold findProduct at h
  have := List.find?_some h
  simpa using this

/-- Helper: writing back a document with the looked-up id makes it the one
found at that id. -/
theorem findProduct_putProduct_self (ps : List Product) (pid : Nat)
    (p p2 : Product) (hfind : findProduct ps pid = some p)
    (hid : p2.id = pid) :
    findProduct (putProduct ps pid p2) pid = some p2 := by
  induction ps with
  | nil => simp [findProduct] at hfind
  | cons x rest ih =>
    by_cases hx : x.id = pid
    · simp [putProduct, findProduct_cons, hx, hid]
    · rw [findProduct_cons, if_neg hx] at hfind
      have : putProduct (x :: rest) pid p2 = x :: putProduct rest pid p2 := by
        simp [putProduct, hx]
      rw [this, findProduct_cons, if_neg hx]
      exact ih hfind

/-- Helper: writing back at id `pid` does not change lookups at other ids. -/
theorem findProduct_putProduct_other (ps : List Product) (pid pid2 : Nat)
    (p2 : Product) (hne : pid2 ≠ pid) (hid : p2.id = pid) :
    findProduct (putProduct ps pid p2) pid2 = findProduct ps pid2 := by
  induction ps with
  | nil => simp [findProduct, putProduct]
  | cons x rest ih =>
    by_cases hx : x.id = pid
    · have h1 : putProduct (x :: rest) pid p2 = p2 :: putProduct rest pid p2 := by
        simp [putProduct, hx]
      have hx2 : ¬x.id = pid2 := by rw [hx]; exact fun h => hne h.symm
      have hp2 : ¬p2.id = pid2 := by rw [hid]; exact fun h => hne h.symm
      rw [h1, findProduct_cons, if_neg hp2, ih, findProduct_cons, if_neg hx2]
    · have h1 : putProduct (x :: rest) pid p2 = x :: putProduct rest pid p2 := by
        simp [putProduct, hx]
      rw [h1, findProduct_cons, findProduct_cons x rest pid2]
      by_cases hx2 : x.id = pid2
      · rw [if_pos hx2, if_pos hx2]
      · rw [if_neg hx2, if_neg hx2, ih]

/-- Helper: releasing stock at `pid` adds exactly the released quantity to
the stock found at `pid`. -/
theorem stockOf_releaseStockL_self (ps : List Product) (pid : Nat) (q : Nat) :
    stockOf (releaseStockL ps pid q) pid =
      (stockOf ps pid).map (fun s => s + (q : Int)) := by
  unfold releaseStockL
  cases hf : findProduct ps pid with
  | none => simp [stockOf, hf]
  | some p =>
    have hid : p.id = pid := findProduct_id ps pid p hf
    have hid2 : (releaseStockP p q).id = pid := by simp [releaseStockP, hid]
    rw [stockOf,
      findProduct_putProduct_self ps pid p (releaseStockP p q) hf hid2]
    simp [stockOf, hf, releaseStockP]

/-- Helper: releasing stock at `pid` leaves every other id unchanged. -/
theorem stockOf_releaseStockL_other (ps : List Product) (pid pid2 : Nat)
    (q : Nat) (hne : pid2 ≠ pid) :
    stockOf (releaseStockL ps pid q) pid2 = stockOf ps pid2 := by
  unfold releaseStockL
  cases hf : findProduct ps pid with
  | none => rfl
  | some p =>
    have hid : p.id = pid := findProduct_id ps pid p hf
    have hid2 : (releaseStockP p q).id = pid := by simp [releaseStockP, hid]
    rw [stockOf,
      findProduct_putProduct_other ps pid pid2 (releaseStockP p q) hne hid2]
    rfl

/-- Order line item as stored on an order document. -/
structure OrderItemO where
  product : Nat
  quantity : Nat
deriving DecidableEq, Repr

/-- Total quantity, over an item list, of lines referencing `pid`. -/
def qtyFor (items : List OrderItemO) (pid : Nat) : Nat :=
  ((items.filter (fun it => it.product == pid)).map OrderItemO.quantity).sum

/-- The stock-release loop run on order cancellation
(`order.orderItems.map(item => Product.releaseStock(...))`). -/
def releaseAll (ps : List Product) (items : List OrderItemO) : List Product :=
  items.foldl (fun acc it => releaseStockL acc it.product it.quantity) ps

/-- Helper: releasing every line of an order adds, per product id, exactly
the summed quantity of the lines referencing it. -/
theorem stockOf_releaseAll (items : List OrderItemO) (ps : List Product)
    (pid : Nat) :
    stockOf (releaseAll ps items) pid =
      (stockOf ps pid).map (fun s => s + (qtyFor items pid : Int)) := by
  induction items generalizing ps with
  | nil =>
    cases h : stockOf ps pid <;> simp [releaseAll, qtyFor, h]
  | cons it rest ih =>
    rw [show releaseAll ps (it :: rest)
        = releaseAll (releaseStockL ps it.product it.quantity) rest from rfl,
      ih]
    by_cases hp : it.product = pid
    · subst hp
      rw [stockOf_releaseStockL_self]
      cases h : stockOf ps it.product with
      | none => simp
      | some s =>
        simp [qtyFor, List.filter_cons]
        ring
    · rw [stockOf_releaseStockL_other ps it.product pid it.quantity
        (fun h => hp h.symm)]
      have : qtyFor (it :: rest) pid = qtyFor rest pid := by
        simp [qtyFor, List.filter_cons, hp]
      rw [this]

/-- Order status values (orderModel.ts `OrderStatus` enum, lines 8-19):
the primary lifecycle plus the auxiliary `ON_HOLD`, `COMPLETED` and
`FAILED` statuses. -/
inductive OStatus where
  | pending
  | processing
  | shipped
  | delivered
  | cancelled
  | returned
  | refunded
  | onHold
  | completed
  | failed
deriving DecidableEq, Repr

/-- Payment status values (`PaymentStatus` enum). -/
inductive PayStatus where
  | pending
  | paid
  | failed
  | refunded
  | partiallyRefunded
deriving DecidableEq, Repr

/-- Order document: the fields touched by the lifecycle statics. -/
structure OrderE where
  id : Nat
  status : OStatus
  version : Nat
  orderItems : List OrderItemO
  isPaid : Bool
  paidAt : Bool
  paymentResult : Option String
  paymentStatus : PayStatus
  cancellationReason : String
  statusHistory : List (OStatus × String)
  isDelivered : Bool
deriving DecidableEq, Repr

/-- Persisted database state seen by the order statics. -/
structure OrderDB where
  products : List Product
  orders : List OrderE
deriving DecidableEq, Repr

/-- `Order.findById`. -/
def findOrder (db : OrderDB) (oid : Nat) : Option OrderE :=
  db.orders.find? (fun o => o.id = oid)

/-- `order.save()`: write the mutated document back. -/
def saveOrder (db : OrderDB) (o : OrderE) : OrderDB :=
  { db with orders := db.orders.map (fun q => if q.id = o.id then o else q) }

/-- The `validTransitions` literal of `updateOrderStatus`
(orderModel.ts lines 593-601).  The object literal has no entries for
`ON_HOLD`, `COMPLETED` or `FAILED` (despite its
`Record<OrderStatus, OrderStatus[]>` annotation), so looking those up
yields `undefined`: modelled as `none`. -/
def validTransitions : OStatus → Option (List OStatus)
  | .pending => some [.processing, .cancelled]
  | .processing => some [.shipped, .cancelled]
  | .shipped => some [.delivered, .returned]
  | .delivered => some [.returned]
  | .cancelled => some []
  | .returned => some [.refunded]
  | .refunded => some []
  | .onHold => none
  | .completed => none
  | .failed => none

/-- `updateOrderStatus(id, newStatus, cancellationReason)` (orderModel.ts
lines 588-627).  A missing order returns `null`; a status with no entry in
the transition table makes `validTransitions[order.status].includes(...)`
dereference `undefined`, a `TypeError`; a listed status with an unlisted
target throws the `Invalid status transition` `AppError`; otherwise the
status is set, the version incremented, and, on transition to CANCELLED,
the reserved stock of every line item is released before the save. -/
def updateOrderStatus (db : OrderDB) (oid : Nat) (newStatus : OStatus)
    (reason : String) : OrderDB × Except Err Unit :=
  match findOrder db oid with
  | none => (db, .ok ())
  | some o =>
    match validTransitions o.status with
    | none =>
      (db, .error (.typeError "Cannot read properties of undefined (reading includes)"))
    | some allowed =>
      if allowed.contains newStatus then
        let o1 := { o with status := newStatus, version := o.version + 1 }
        if newStatus = .cancelled then
          let o2 := { o1 with cancellationReason := reason }
          (saveOrder { db with products := releaseAll db.products o.orderItems } o2,
           .ok ())
        else
          (saveOrder db o1, .ok ())
      else
        (db, .error (.appError "Invalid status transition" 400))

/-- `canBeCancelled()` (orderModel.ts lines 761-771). -/
def canBeCancelled (o : OrderE) : Bool :=
  !([OStatus.shipped, OStatus.delivered, OStatus.completed,
     OStatus.cancelled, OStatus.refunded].contains o.status)

/-- `addStatusHistoryEvent(status, description)` (orderModel.ts lines
731-759): appends a history event and sets the status; DELIVERED and
COMPLETED additionally mark the order delivered. -/
def addStatusHistoryEvent (o : OrderE) (st : OStatus) (desc : String) :
    OrderE :=
  let o1 := { o with statusHistory := o.statusHistory ++ [(st, desc)],
                     status := st }
  if st = .delivered then { o1 with isDelivered := true }
  else if st = .completed then { o1 with isDelivered := true }
  else o1

/-- `cancelOrder(orderId, reason, userId)` (orderModel.ts lines 1122-1172).
After the guard and the in-memory mutations, the function releases the
stock of every line item; it then evaluates `if (refundAmount)` where
`refundAmount` is not declared anywhere in the function or module, raising
a `ReferenceError`, so the trailing `order.save()` never runs: the stock
releases are persisted (releaseStock writes directly) but the mutated
order document is not. -/
def cancelOrder (db : OrderDB) (oid : Nat) (_reason : String) :
    OrderDB × Except Err Unit :=
  match findOrder db oid with
  | none => (db, .ok ())
  | some o =>
    if canBeCancelled o then
      ({ db with products := releaseAll db.products o.orderItems },
       .error (.referenceError "refundAmount is not defined"))
    else
      (db, .error (.genericError "Order cannot be cancelled in status"))

/-- First definition of `processPayment` (orderModel.ts lines 629-641):
guards on `isPaid`, then records the payment and bumps the version.  This
assignment to `orderSchema.statics.processPayment` is later overwritten. -/
def processPaymentFirst (db : OrderDB) (oid : Nat) (paymentData : String) :
    OrderDB × Except Err Unit :=
  match findOrder db oid with
  | none => (db, .ok ())
  | some o =>
    if o.isPaid then (db, .error (.appError "Order already paid" 400))
    else
      (saveOrder db { o with paymentResult := some paymentData,
                             isPaid := true, paidAt := true,
                             version := o.version + 1 },
       .ok ())

/-- Second definition of `processPayment` (orderModel.ts lines 1084-1120):
no `isPaid` guard at all; it unconditionally stores a fresh simulated
payment result, sets `isPaid`/`paidAt`/`paymentStatus`, and appends a
PROCESSING history event.  The simulated gateway result is modelled as
the string `PAY-` plus the supplied method. -/
def processPaymentSecond (db : OrderDB) (oid : Nat) (method : String) :
    OrderDB × Except Err Unit :=
  match findOrder db oid with
  | none => (db, .error (.genericError "Order not found"))
  | some o =>
    let o1 := { o with paymentResult := some ("PAY-" ++ method),
                       isPaid := true, paidAt := true,
                       paymentStatus := PayStatus.paid }
    let o2 := addStatusHistoryEvent o1 .processing
      "Payment processed successfully"
    (saveOrder db o2, .ok ())

/-- Effective `processPayment`: the second assignment to
`orderSchema.statics.processPayment` overwrites the first, so callers get
the unguarded version. -/
def processPayment (db : OrderDB) (oid : Nat) (method : String) :
    OrderDB × Except Err Unit :=
  processPaymentSecond db oid method

/-- Concrete order sitting in the auxiliary ON_HOLD status. -/
def orderC5 : OrderE :=
  { id := 1, status := .onHold, version := 2, orderItems := [⟨1, 2⟩],
    isPaid := false, paidAt := false, paymentResult := none,
    paymentStatus := .pending, cancellationReason := "",
    statusHistory := [], isDelivered := false }

/-- Concrete database holding `orderC5`. -/
def dbC5 : OrderDB :=
  { products := [⟨1, 4, true⟩], orders := [orderC5] }

/-- C5 failing input: an order whose current status is ON_HOLD (one of the
three statuses the `validTransitions` literal omits).  `updateOrderStatus`
then evaluates `undefined.includes(newStatus)` and crashes with a
`TypeError`, not the `Invalid status transition` `AppError` the claim
requires; the order document is left unchanged only because the crash
happens before any mutation. -/
theorem updateOrderStatus_onHold_typeError :
    updateOrderStatus dbC5 1 .processing "" =
      (dbC5, .error (.typeError
        "Cannot read properties of undefined (reading includes)")) ∧
    ∀ msg code, (updateOrderStatus dbC5 1 .processing "").2 ≠
      .error (.appError msg code) := by
  constructor
  · rfl
  · intro msg code h
    rw [show (updateOrderStatus dbC5 1 OStatus.processing "").2 =
        Except.error (Err.typeError
          "Cannot read properties of undefined (reading includes)")
      from rfl] at h
    exact Err.noConfusion (Except.error.inj h)

/-- C6: cancelling a cancellable order — through
`updateOrderStatus(id, CANCELLED)` from PENDING or PROCESSING, or through
`cancelOrder` — releases the reserved stock of every line item exactly
once: for every product id, the stock found afterwards is the prior stock
plus the summed quantity of the line items referencing that id.  (In the
`cancelOrder` path the releases are persisted even though the call
afterwards crashes on the undeclared `refundAmount` before saving the
order document.) -/
theorem cancellation_releases_stock (db : OrderDB) (oid : Nat)
    (reason : String) (o : OrderE)
    (ho : findOrder db oid = some o)
    (hs : o.status = .pending ∨ o.status = .processing) :
    (∀ pid, stockOf (updateOrderStatus db oid .cancelled reason).1.products pid
        = (stockOf db.products pid).map
            (fun s => s + (qtyFor o.orderItems pid : Int))) ∧
    (updateOrderStatus db oid .cancelled reason).2 = .ok () ∧
    (∀ pid, stockOf (cancelOrder db oid reason).1.products pid
        = (stockOf db.products pid).map
            (fun s => s + (qtyFor o.orderItems pid : Int))) := by
  have hcb : canBeCancelled o = true := by
    rcases hs with h | h <;> simp [canBeCancelled, h]
  have hcancel :
      (cancelOrder db oid reason).1.products
        = releaseAll db.products o.orderItems := by
    simp [cancelOrder, ho, hcb]
  have hupd :
      (updateOrderStatus db oid .cancelled reason).1.products
        = releaseAll db.products o.orderItems ∧
      (updateOrderStatus db oid .cancelled reason).2 = .ok () := by
    rcases hs with h | h <;>
      simp [updateOrderStatus, ho, h, validTransitions, saveOrder]
  refine ⟨?_, hupd.2, ?_⟩
  · intro pid
    rw [hupd.1, stockOf_releaseAll]
  · intro pid
    rw [hcancel, stockOf_releaseAll]

/-- Concrete PENDING order with a single line item of quantity 3. -/
def orderC6 : OrderE :=
  { id := 1, status := .pending, version := 0, orderItems := [⟨1, 3⟩],
    isPaid := false, paidAt := false, paymentResult := none,
    paymentStatus := .pending, cancellationReason := "",
    statusHistory := [], isDelivered := false }

/-- Concrete database for the C6 witness: the product stock is 2, its
value after 3 units were reserved out of 5. -/
def dbC6 : OrderDB :=
  { products := [⟨1, 2, true⟩], orders := [orderC6] }

/-- Witness for C6: cancelling the PENDING order with item
`{product 1, qty 3}` restores the product stock from its reserved value 2
to 5, exactly 3 more. -/
theorem cancellation_releases_stock_witness :
    stockOf (updateOrderStatus dbC6 1 OStatus.cancelled "requested").1.products 1
      = some 5 := by
  have h := (cancellation_releases_stock dbC6 1 "requested" orderC6
    rfl (Or.inl rfl)).1 1
  rw [h]
  decide

/-- Concrete order that is already paid, with a stored payment result. -/
def orderC7 : OrderE :=
  { id := 1, status := .pending, version := 3, orderItems := [],
    isPaid := true, paidAt := true, paymentResult := some "PAY-original",
    paymentStatus := .paid, cancellationReason := "",
    statusHistory := [], isDelivered := false }

/-- Concrete database holding the already-paid `orderC7`. -/
def dbC7 : OrderDB :=
  { products := [], orders := [orderC7] }

/-- C7 failing input: calling the effective `processPayment` on an
already-paid order.  The second statics definition overwrote the guarded
first one, so the call succeeds and overwrites the stored payment result
with a fresh one instead of rejecting with `AlreadyPaid`; only the
shadowed first definition would have rejected it. -/
theorem processPayment_ignores_alreadyPaid :
    (processPayment dbC7 1 "card").2 = .ok () ∧
    (findOrder (processPayment dbC7 1 "card").1 1).map OrderE.paymentResult
      = some (some "PAY-card") ∧
    (findOrder (processPayment dbC7 1 "card").1 1).map OrderE.status
      = some .processing ∧
    processPaymentFirst dbC7 1 "card"
      = (dbC7, .error (.appError "Order already paid" 400)) := by
  refine ⟨rfl, rfl, rfl, rfl⟩

/-! ### C1: the createOrder flow

The controller `createOrder` (OrderControllers.ts lines 23-126) opens a
transaction, looks the products up, reserves stock for every item with
`Product.reserveStock` — which never takes the session, so its writes
commit outside the transaction — and then calls the model static
`Order.createOrder` (orderModel.ts lines 547-579), which for every item
checks `isProductAvailable` and calls `Product.reserveStock` a second
time (again outside the session) before saving the order inside the
session.  On any throw the transaction is aborted: the order save is
rolled back but none of the reserveStock writes are.  Note also that the
controller availability check at line 48 tests the truthiness of an
un-awaited Promise and therefore never fires; it is omitted here. -/

/-- Database state for the flow: committed products and persisted orders,
each order recorded as its list of line items `(productId, quantity)`. -/
structure FlowDB where
  products : List Product
  orders : List (List (Nat × Nat))
deriving DecidableEq, Repr

/-- The controller reservation loop (`Promise.all` over
`Product.reserveStock(item.product, item.quantity)`): each write commits
immediately; the first throw aborts the rest but the writes so far
remain. -/
def reserveLoopC : List Product → List (Nat × Nat) →
    List Product × Option Err
  | ps, [] => (ps, none)
  | ps, (pid, q) :: rest =>
    match reserveStockL ps pid q with
    | .error e => (ps, some e)
    | .ok ps2 => reserveLoopC ps2 rest

/-- The model-static reservation loop inside `Order.createOrder`: per item
a sessioned existence read, the awaited `isProductAvailable` check (throws
the insufficient-stock AppError when false), then a second
`Product.reserveStock` call, all stock writes committing outside the
session. -/
def reserveLoopM : List Product → List (Nat × Nat) →
    List Product × Option Err
  | ps, [] => (ps, none)
  | ps, (pid, q) :: rest =>
    match findProduct ps pid with
    | none => (ps, some (.appError "Product not found" 404))
    | some _ =>
      if isProductAvailableL ps pid q then
        match reserveStockL ps pid q with
        | .error e => (ps, some e)
        | .ok ps2 => reserveLoopM ps2 rest
      else
        (ps, some (.appError "Insufficient stock" 400))

/-- The combined `createOrder` flow.  A transaction abort rolls back the
sessioned order save only; every `reserveStock` write stays committed. -/
def createOrderFlow (db : FlowDB) (items : List (Nat × Nat)) :
    FlowDB × Except Err Unit :=
  if items.all (fun it => (findProduct db.products it.1).isSome) then
    match reserveLoopC db.products items with
    | (ps1, some e) => ({ db with products := ps1 }, .error e)
    | (ps1, none) =>
      match reserveLoopM ps1 items with
      | (ps2, some e) => ({ db with products := ps2 }, .error e)
      | (ps2, none) =>
        ({ products := ps2, orders := db.orders ++ [items] }, .ok ())
  else
    (db, .error (.appError "One or more products not found" 404))

/-- Database for the C1 abort path: one product with stock 5. -/
def dbC1abort : FlowDB := { products := [⟨1, 5, true⟩], orders := [] }

/-- Database for the C1 success path: one product with stock 10. -/
def dbC1ok : FlowDB := { products := [⟨1, 10, true⟩], orders := [] }

/-- C1 failing inputs.  Abort path: a single-item order of quantity 3 on a
product with stock 5 fails (the second availability check sees the already
decremented stock 2 < 3), no order is persisted, yet the stock stays at 2
instead of 5 — the controller reservation survives the transaction abort.
Success path: the same order on stock 10 is persisted, but the stock drops
to 4 = 10 - 2*3 because both the controller and the model static reserve
the item — not decremented by exactly the ordered quantity.  Both
disjuncts of the claimed all-or-nothing property fail. -/
theorem createOrder_not_atomic :
    ((createOrderFlow dbC1abort [(1, 3)]).2
        = .error (.appError "Insufficient stock" 400) ∧
      (createOrderFlow dbC1abort [(1, 3)]).1.orders = [] ∧
      stockOf (createOrderFlow dbC1abort [(1, 3)]).1.products 1 = some 2) ∧
    ((createOrderFlow dbC1ok [(1, 3)]).2 = .ok () ∧
      (createOrderFlow dbC1ok [(1, 3)]).1.orders = [[(1, 3)]] ∧
      stockOf (createOrderFlow dbC1ok [(1, 3)]).1.products 1 = some 4) := by
  refine ⟨⟨rfl, rfl, rfl⟩, ⟨rfl, rfl, rfl⟩⟩

/-! ### C4: calculateOrderTotals (orderModel.ts lines 1056-1082)

JavaScript numbers are modelled as exact rationals and `toFixed(2)` as
rounding to two decimals, half away from zero — the `round(x, 2)` the
specification itself uses. -/

/-- Rounding to the nearest integer, halves away from zero (the decimal
semantics of `toFixed`).  `Rat.floor` is used directly so the definition
stays kernel-computable. -/
def roundHalfAway (x : ℚ) : Int :=
  if 0 ≤ x then (x + 1/2).floor else -((-x + 1/2).floor)

/-- `+x.toFixed(2)`: round to two decimal places. -/
def round2 (x : ℚ) : ℚ := (roundHalfAway (x * 100) : ℚ) / 100

/-- Helper: `roundHalfAway` written with the floor bracket. -/
theorem roundHalfAway_floor (x : ℚ) :
    roundHalfAway x = if 0 ≤ x then ⌊x + 1/2⌋ else -⌊-x + 1/2⌋ := by
  unfold roundHalfAway
  rw [Rat.floor_def', Rat.floor_def', ← Rat.floor_def, ← Rat.floor_def]

/-- An order line item as the pricing code reads it: unit price and
quantity. -/
structure PriceItem where
  price : ℚ
  quantity : ℚ
deriving DecidableEq, Repr

/-- Result record of `calculateOrderTotals`. -/
structure OrderTotals where
  itemsPrice : ℚ
  taxPrice : ℚ
  discountPrice : ℚ
  totalPrice : ℚ
deriving DecidableEq, Repr

/-- `items.reduce((sum, item) => sum + item.price * item.quantity, 0)`. -/
def itemsSubtotal (items : List PriceItem) : ℚ :=
  items.foldl (fun s it => s + it.price * it.quantity) 0

/-- `calculateOrderTotals(items, shippingPrice, taxRate, discountAmount)`
(orderModel.ts lines 1056-1082).  There is no discount-type parameter:
`discountPrice` is always `+Math.min(discountAmount, itemsPrice).toFixed(2)`,
and the total is not floored at zero. -/
def calculateOrderTotals (items : List PriceItem) (shippingPrice : ℚ)
    (taxRate : ℚ) (discountAmount : ℚ) : OrderTotals :=
  let itemsPrice := itemsSubtotal items
  let taxPrice := round2 (itemsPrice * taxRate)
  let discountPrice := round2 (min discountAmount itemsPrice)
  let totalPrice := round2 (itemsPrice + taxPrice + shippingPrice - discountPrice)
  { itemsPrice := itemsPrice, taxPrice := taxPrice,
    discountPrice := discountPrice, totalPrice := totalPrice }

/-- Discount types named by the specification. -/
inductive DiscountType where
  | percentage
  | fixed
deriving DecidableEq, Repr

/-- Modelled from the spec (for comparison with the source function): the
claimed totals computation, with a per-type discount —
`round(itemsPrice * amount/100, 2)` for percentage, `round(min(amount,
itemsPrice), 2)` for fixed — and a total floored at 0. -/
def calculateOrderTotalsSpec (items : List PriceItem) (shippingPrice : ℚ)
    (taxRate : ℚ) (discountAmount : ℚ) (dtype : DiscountType) : OrderTotals :=
  let itemsPrice := itemsSubtotal items
  let taxPrice := round2 (itemsPrice * taxRate)
  let discountPrice :=
    match dtype with
    | .percentage => round2 (itemsPrice * (discountAmount / 100))
    | .fixed => round2 (min discountAmount itemsPrice)
  let totalPrice :=
    max 0 (round2 (itemsPrice + taxPrice + shippingPrice - discountPrice))
  { itemsPrice := itemsPrice, taxPrice := taxPrice,
    discountPrice := discountPrice, totalPrice := totalPrice }

/-- C4 counterexample.  A percentage discount of 10 (percent) on a 50.00
subtotal should give discountPrice 5.00, but `calculateOrderTotals` has no
discount-type parameter and always applies the fixed rule, giving 10.00.
Further, with subtotal 0.005 and discount 1 the code returns
totalPrice = -0.01 — there is no floor at 0, where the claimed computation
returns 0 — and with subtotal 0.006 the rounded discountPrice 0.01
exceeds the subtotal, refuting `discountPrice ≤ itemsPrice`. -/
theorem calculateOrderTotals_counterexample :
    (calculateOrderTotals [⟨50, 1⟩] 0 0 10).discountPrice = 10 ∧
    (calculateOrderTotalsSpec [⟨50, 1⟩] 0 0 10 .percentage).discountPrice = 5 ∧
    (calculateOrderTotals [⟨50, 1⟩] 0 0 10).discountPrice ≠
      (calculateOrderTotalsSpec [⟨50, 1⟩] 0 0 10 .percentage).discountPrice ∧
    (calculateOrderTotals [⟨1/200, 1⟩] 0 0 1).totalPrice = -(1/100) ∧
    (calculateOrderTotalsSpec [⟨1/200, 1⟩] 0 0 1 .fixed).totalPrice = 0 ∧
    (calculateOrderTotals [⟨3/500, 1⟩] 0 0 1).discountPrice = 1/100 ∧
    itemsSubtotal [⟨3/500, 1⟩] = 3/500 ∧
    ¬((1 : ℚ)/100 ≤ 3/500) := by
  norm_num [calculateOrderTotals, calculateOrderTotalsSpec, itemsSubtotal,
    round2, roundHalfAway_floor]

/-- Helper: the items subtotal of non-negative lines is non-negative. -/
theorem itemsSubtotal_nonneg_aux (items : List PriceItem) (acc : ℚ)
    (hacc : 0 ≤ acc)
    (h : ∀ it ∈ items, 0 ≤ it.price ∧ 0 ≤ it.quantity) :
    0 ≤ items.foldl (fun s it => s + it.price * it.quantity) acc := by
  induction items generalizing acc with
  | nil => simpa using hacc
  | cons it rest ih =>
    have hit := h it (List.mem_cons_self it rest)
    have hrest : ∀ x ∈ rest, 0 ≤ x.price ∧ 0 ≤ x.quantity :=
      fun x hx => h x (List.mem_cons_of_mem it hx)
    have : 0 ≤ acc + it.price * it.quantity :=
      add_nonneg hacc (mul_nonneg hit.1 hit.2)
    simpa using ih (acc + it.price * it.quantity) this hrest

/-- Helper: non-negative lines give a non-negative subtotal. -/
theorem itemsSubtotal_nonneg (items : List PriceItem)
    (h : ∀ it ∈ items, 0 ≤ it.price ∧ 0 ≤ it.quantity) :
    0 ≤ itemsSubtotal items :=
  itemsSubtotal_nonneg_aux items 0 le_rfl h

/-- Helper: rounding a non-negative value to two decimals stays
non-negative. -/
theorem round2_nonneg (x : ℚ) (hx : 0 ≤ x) : 0 ≤ round2 x := by
  have h100 : 0 ≤ x * 100 := by positivity
  have : (0 : Int) ≤ roundHalfAway (x * 100) := by
    rw [roundHalfAway_floor, if_pos h100]
    exact Int.le_floor.mpr (by push_cast; linarith)
  unfold round2
  have : (0 : ℚ) ≤ (roundHalfAway (x * 100) : ℚ) := by exact_mod_cast this
  positivity

/-- Helper: rounding a value between 0 and a whole-cent bound stays below
that bound. -/
theorem round2_le_of_cent (m ip : ℚ) (n : Int) (hm : 0 ≤ m) (hmi : m ≤ ip)
    (hcent : ip * 100 = (n : ℚ)) : round2 m ≤ ip := by
  have hbranch : 0 ≤ m * 100 := by positivity
  have hfl : roundHalfAway (m * 100) = ⌊m * 100 + 1/2⌋ := by
    rw [roundHalfAway_floor, if_pos hbranch]
  have hle : ⌊m * 100 + 1/2⌋ ≤ n := by
    have h1 : m * 100 + 1/2 ≤ (n : ℚ) + 1/2 := by
      have : m * 100 ≤ ip * 100 := by linarith
      rw [hcent] at this
      linarith
    have h2 : ⌊m * 100 + 1/2⌋ ≤ ⌊(n : ℚ) + 1/2⌋ := Int.floor_le_floor h1
    have h3 : ⌊(n : ℚ) + 1/2⌋ = n + ⌊(1 : ℚ)/2⌋ := by
      rw [Int.floor_int_add]
    have h4 : ⌊(1 : ℚ)/2⌋ = 0 := by norm_num
    omega
  unfold round2
  rw [hfl]
  have : (⌊m * 100 + 1/2⌋ : ℚ) ≤ (n : ℚ) := by exact_mod_cast hle
  rw [show ip = (n : ℚ) / 100 by rw [← hcent]; ring]
  exact (div_le_div_iff_of_pos_right (by norm_num)).mpr this

/-- C4 amended: `calculateOrderTotals` ignores any discount type — it
always computes the fixed-discount rule `round(min(amount, itemsPrice), 2)`
— and applies no floor to the total.  For non-negative inputs whose items
subtotal is a whole number of cents, the bounds the claim asserts do hold:
`discountPrice ≤ itemsPrice` and `totalPrice ≥ 0`; the other output fields
follow the claimed formulas. -/
theorem calculateOrderTotals_amended (items : List PriceItem)
    (ship rate amount : ℚ)
    (hitems : ∀ it ∈ items, 0 ≤ it.price ∧ 0 ≤ it.quantity)
    (hship : 0 ≤ ship) (hrate : 0 ≤ rate) (hamount : 0 ≤ amount)
    (hcent : ∃ n : Int, itemsSubtotal items * 100 = (n : ℚ)) :
    (calculateOrderTotals items ship rate amount).itemsPrice
      = itemsSubtotal items ∧
    (calculateOrderTotals items ship rate amount).taxPrice
      = round2 (itemsSubtotal items * rate) ∧
    (calculateOrderTotals items ship rate amount).discountPrice
      = round2 (min amount (itemsSubtotal items)) ∧
    (calculateOrderTotals items ship rate amount).totalPrice
      = round2 (itemsSubtotal items
          + round2 (itemsSubtotal items * rate) + ship
          - round2 (min amount (itemsSubtotal items))) ∧
    (calculateOrderTotals items ship rate amount).discountPrice
      ≤ (calculateOrderTotals items ship rate amount).itemsPrice ∧
    0 ≤ (calculateOrderTotals items ship rate amount).totalPrice := by
  obtain ⟨n, hn⟩ := hcent
  have hip : 0 ≤ itemsSubtotal items := itemsSubtotal_nonneg items hitems
  have hmin0 : 0 ≤ min amount (itemsSubtotal items) := le_min hamount hip
  have hdisc : round2 (min amount (itemsSubtotal items)) ≤ itemsSubtotal items :=
    round2_le_of_cent (min amount (itemsSubtotal items)) (itemsSubtotal items)
      n hmin0 (min_le_right amount (itemsSubtotal items)) hn
  have htax : 0 ≤ round2 (itemsSubtotal items * rate) :=
    round2_nonneg _ (mul_nonneg hip hrate)
  refine ⟨rfl, rfl, rfl, rfl, hdisc, ?_⟩
  exact round2_nonneg _ (by linarith)

/-- Witness for C4 amended: items `[{price 10, qty 3}]`, shipping 5, tax
rate 0.1, no discount; the subtotal 30.00 is a whole number of cents and
the computed total is non-negative. -/
theorem calculateOrderTotals_amended_witness :
    0 ≤ (calculateOrderTotals [⟨10, 3⟩] 5 (1/10) 0).totalPrice :=
  (calculateOrderTotals_amended [⟨10, 3⟩] 5 (1/10) 0
    (by intro it hit; simp at hit; rw [hit]; norm_num)
    (by norm_num) (by norm_num) le_rfl
    ⟨3000, by norm_num [itemsSubtotal]⟩).2.2.2.2.2

/-! ### Cart model (cartModel.ts) -/

/-- Cart line item: product reference and quantity (a JavaScript number,
modelled as a rational so that the integer-quantity validator is a real
check). -/
structure CartItemC where
  product : Nat
  quantity : ℚ
deriving DecidableEq, Repr

/-- Cart document (the fields the claims touch). -/
structure Cart where
  items : List CartItemC
deriving DecidableEq, Repr

/-- `removeItem(userId, productId)` on a found cart (cartModel.ts lines
756-785): the code first overwrites `cart.items` with
`items.filter(item => item.product !== productId)` and only then runs
`findIndex(item => item.product === productId)` on the already filtered
list, so the index is always `-1` and the `Item not found in cart` error
is always thrown before the save. -/
def removeItem (cart : Cart) (pid : Nat) : Except Err Cart :=
  let filtered := cart.items.filter (fun it => it.product != pid)
  match List.findIdx? (fun it => it.product == pid) filtered with
  | none => .error (.appError "Item not found in cart" 404)
  | some i => .ok { cart with items := filtered.eraseIdx i }

/-- Helper: `findIdx?` over a list none of whose elements satisfy the
predicate finds nothing. -/
theorem findIdxQ_none {α : Type} (p : α → Bool) :
    ∀ (l : List α), (∀ x ∈ l, p x = false) →
      ∀ i, List.findIdx? p l i = none
  | [], _, _ => rfl
  | x :: rest, h, i => by
    have hx := h x (List.mem_cons_self x rest)
    have hrest : ∀ y ∈ rest, p y = false :=
      fun y hy => h y (List.mem_cons_of_mem x hy)
    simp [List.findIdx?, hx]
    exact hrest

/-- C8: `removeItem` fails with `ItemNotFound` on every cart and every
product id — even when the cart does contain a line for the product —
because the line is filtered out before the presence check runs.  The
claim that `removeItem` fails if and only if the line is absent is false:
it always fails (and, since the throw precedes the save, never removes
anything from the persisted cart). -/
theorem removeItem_always_fails (cart : Cart) (pid : Nat) :
    removeItem cart pid = .error (.appError "Item not found in cart" 404) := by
  have hnone : ∀ x ∈ cart.items.filter (fun it => it.product != pid),
      (x.product == pid) = false := by
    intro x hx
    have := (List.mem_filter.mp hx).2
    simpa using this
  have hidx : List.findIdx? (fun it => it.product == pid)
      (cart.items.filter (fun it => it.product != pid)) 0 = none :=
    findIdxQ_none (fun it => it.product == pid)
      (cart.items.filter (fun it => it.product != pid)) hnone 0
  simp [removeItem, hidx]

/-- Per-item validators of the cart item schema (cartModel.ts lines
135-144): quantity at least 1, at most 100, and an integer. -/
def cartItemValid (it : CartItemC) : Bool :=
  decide (1 ≤ it.quantity) && decide (it.quantity ≤ 100)
    && (it.quantity.den == 1)

/-- Cart-level validator (cartModel.ts lines 211-217): at most 100
distinct product lines, and every line valid. -/
def cartValid (c : Cart) : Bool :=
  decide (c.items.length ≤ 100) && c.items.all cartItemValid

/-- Database state for cart persistence: products plus the single active
cart slot of the user. -/
structure CartDB where
  products : List Product
  cart : Option Cart
deriving DecidableEq, Repr

/-- Mongoose document `save()`: runs the schema validators and persists
only when they pass. -/
def saveCartDoc (db : CartDB) (c : Cart) : CartDB × Except Err Unit :=
  if cartValid c then ({ db with cart := some c }, .ok ())
  else (db, .error (.validationError "Cart validation failed"))

/-- `createOrUpdateCart(userId, items)` (cartModel.ts lines 516-563):
after checking each product exists it persists the new item list through
`findOneAndUpdate` with `$set: { items }` — an update query issued
without `runValidators`, so no schema validator runs and the write always
succeeds. -/
def createOrUpdateCart (db : CartDB) (items : List (Nat × ℚ)) :
    CartDB × Except Err Unit :=
  if items.all (fun it => (findProduct db.products it.1).isSome) then
    ({ db with cart := some ⟨items.map (fun it => ⟨it.1, it.2⟩)⟩ }, .ok ())
  else
    (db, .error (.appError "Product not found" 404))

/-- Concrete database for the C10 counterexample: one product. -/
def dbC10 : CartDB := { products := [⟨1, 10, true⟩], cart := none }

/-- C10 counterexample: `createOrUpdateCart` persists a cart line with
quantity 500 — far outside the schema bound of 100 — because
`findOneAndUpdate` with `$set` bypasses the schema validators; the claim
that no operation can ever save a cart outside the bounds is false. -/
theorem createOrUpdateCart_bypasses_validators :
    (createOrUpdateCart dbC10 [(1, 500)]).2 = .ok () ∧
    (createOrUpdateCart dbC10 [(1, 500)]).1.cart = some ⟨[⟨1, 500⟩]⟩ ∧
    cartValid ⟨[⟨1, 500⟩]⟩ = false := by
  refine ⟨rfl, rfl, by decide⟩

/-- C10 amended: carts persisted through the Mongoose document `save()`
path (used by addItem, removeItem, updateItemQuantity, clearCart) do
satisfy the schema bounds — a save succeeds only if the cart has at most
100 lines and every quantity is an integer between 1 and 100 — but the
update-query paths (`createOrUpdateCart` via `findOneAndUpdate` `$set`
without `runValidators`, and the `bulkWrite` in `mergeCarts`) bypass the
validators and can persist carts outside the bounds. -/
theorem saveCartDoc_validates (db : CartDB) (c : Cart) (db2 : CartDB)
    (h : saveCartDoc db c = (db2, .ok ())) :
    c.items.length ≤ 100 ∧
    ∀ it ∈ c.items, 1 ≤ it.quantity ∧ it.quantity ≤ 100 ∧
      it.quantity.den = 1 := by
  unfold saveCartDoc at h
  by_cases hv : cartValid c = true
  · have hlen := (Bool.and_eq_true _ _).mp hv
    refine ⟨by simpa using of_decide_eq_true hlen.1, ?_⟩
    intro it hit
    have hall := List.all_eq_true.mp hlen.2 it hit
    have h1 := (Bool.and_eq_true _ _).mp hall
    have h2 := (Bool.and_eq_true _ _).mp h1.1
    exact ⟨of_decide_eq_true h2.1, of_decide_eq_true h2.2,
      by simpa using h1.2⟩
  · rw [if_neg hv] at h
    exact absurd (congrArg Prod.snd h) (by simp)

/-- Witness for C10 amended: saving a cart with the single line
`{product 1, qty 2}` succeeds and the bounds hold for it. -/
theorem saveCartDoc_validates_witness :
    (1 : ℚ) ≤ 2 ∧ (2 : ℚ) ≤ 100 ∧ (2 : ℚ).den = 1 :=
  (saveCartDoc_validates dbC10 ⟨[⟨1, 2⟩]⟩
    { dbC10 with cart := some ⟨[⟨1, 2⟩]⟩ } rfl).2 ⟨1, 2⟩
    (List.mem_singleton.mpr rfl)

/-! ### C9: review rating aggregation (part_012 lines 490-520,
cartModel.ts lines 1221-1266) -/

/-- Review document: id, owning product, rating, soft-delete flag. -/
structure Review where
  id : Nat
  product : Nat
  rating : ℚ
  isDeleted : Bool
deriving DecidableEq, Repr

/-- The rating fields of a product document. -/
structure ProductRatings where
  ratingsAverage : ℚ
  ratingsQuantity : Nat
deriving DecidableEq, Repr

/-- The `$match` stage of `calculateAverageRating`: reviews of the product
that are not soft-deleted. -/
def nonDeletedFor (reviews : List Review) (pid : Nat) : List Review :=
  reviews.filter (fun r => r.product == pid && !r.isDeleted)

/-- `calculateAverageRating(productId)` (part_012 lines 490-520): a full
aggregation over the non-deleted reviews of the product; with no matching
review the `stats[0]?.ratingsAverage || 4.5` fallback yields 4.5 and the
quantity fallback 0.  The JavaScript `||` also maps an aggregated average
of exactly 0 to 4.5, modelled by the inner conditional. -/
def calculateAverageRating (reviews : List Review) (pid : Nat) :
    ProductRatings :=
  let stats := nonDeletedFor reviews pid
  if stats.isEmpty then { ratingsAverage := 9/2, ratingsQuantity := 0 }
  else
    let avg := (stats.map Review.rating).sum / stats.length
    { ratingsAverage := if avg = 0 then 9/2 else avg,
      ratingsQuantity := stats.length }

/-- Database slice for the review aggregator: the review collection and
the rating fields of one product. -/
structure ReviewDB where
  reviews : List Review
  productId : Nat
  product : ProductRatings
deriving DecidableEq, Repr

/-- The `ratingsAverage` schema setter (part_012 line 237):
`Math.round(val * 10) / 10`, rounding the stored average to one decimal
(the source comment reads `4.666 => 4.7`).  JavaScript `Math.round` sends
halves toward positive infinity, i.e. `floor(x + 1/2)`; `Rat.floor` keeps
the definition kernel-computable. -/
def round1 (x : ℚ) : ℚ := (((x * 10 + 1/2).floor : Int) : ℚ) / 10

/-- Helper: `round1` written with the floor bracket. -/
theorem round1_floor (x : ℚ) :
    round1 x = ((⌊x * 10 + 1/2⌋ : Int) : ℚ) / 10 := by
  unfold round1
  rw [Rat.floor_def', ← Rat.floor_def]

/-- Helper: the no-review default 4.5 is a fixed point of the setter. -/
theorem round1_nine_halves : round1 (9/2) = 9/2 := by
  rw [round1_floor]
  norm_num

/-- Helper: the setter distributes over the empty-or-mean conditional. -/
theorem round1_ite (c : Prop) [Decidable c] (m : ℚ) :
    round1 (if c then 9/2 else m) = if c then 9/2 else round1 m := by
  by_cases hc : c <;> simp [hc, round1_nine_halves]

/-- The `findByIdAndUpdate(productId, {$set: ...})` ending
`calculateAverageRating`: updates the product only when the id matches.
Mongoose applies the `ratingsAverage` schema setter to the `$set` value,
so the stored average is `round1` of the aggregated one. -/
def applyRecalc (db : ReviewDB) (pid : Nat) : ReviewDB :=
  if pid = db.productId then
    let ops := calculateAverageRating db.reviews pid
    { db with product := { ratingsAverage := round1 ops.ratingsAverage,
                           ratingsQuantity := ops.ratingsQuantity } }
  else db

/-- `createReview(data)` (cartModel.ts lines 1221-1230): insert, then
recompute the owning product. -/
def createReview (db : ReviewDB) (r : Review) : ReviewDB :=
  applyRecalc { db with reviews := db.reviews ++ [r] } r.product

/-- `updateReview(reviewId, data)` (cartModel.ts lines 1232-1249): update
the rating, then recompute the owning product; a missing review changes
nothing. -/
def updateReview (db : ReviewDB) (rid : Nat) (newRating : ℚ) : ReviewDB :=
  match db.reviews.find? (fun x => x.id == rid) with
  | none => db
  | some r0 =>
    let upd := db.reviews.map
      (fun x => if x.id == rid then { x with rating := newRating } else x)
    applyRecalc { db with reviews := upd } r0.product

/-- `deleteReview(reviewId)` (cartModel.ts lines 1251-1266): soft-delete,
then recompute the owning product. -/
def deleteReview (db : ReviewDB) (rid : Nat) : ReviewDB :=
  match db.reviews.find? (fun x => x.id == rid) with
  | none => db
  | some r0 =>
    let upd := db.reviews.map
      (fun x => if x.id == rid then { x with isDeleted := true } else x)
    applyRecalc { db with reviews := upd } r0.product

/-- The aggregation invariant the program maintains: quantity is the
number of non-deleted reviews of the product, and the stored average is
their mean rounded to one decimal by the schema setter (9/2 when there
are none, itself a fixed point of the rounding). -/
def ratingsInvariant (db : ReviewDB) : Prop :=
  db.product.ratingsQuantity = (nonDeletedFor db.reviews db.productId).length ∧
  db.product.ratingsAverage =
    (if (nonDeletedFor db.reviews db.productId).isEmpty then 9/2
     else round1 (((nonDeletedFor db.reviews db.productId).map Review.rating).sum /
       (nonDeletedFor db.reviews db.productId).length))

/-- Helper: a list of ratings that are all at least 1 sums to at least its
length. -/
theorem sum_ratings_ge_length (l : List Review)
    (h : ∀ x ∈ l, 1 ≤ x.rating) :
    (l.length : ℚ) ≤ (l.map Review.rating).sum := by
  induction l with
  | nil => simp
  | cons x rest ih =>
    have hx := h x (List.mem_cons_self x rest)
    have hrest : ∀ y ∈ rest, 1 ≤ y.rating :=
      fun y hy => h y (List.mem_cons_of_mem x hy)
    have := ih hrest
    simp only [List.map_cons, List.sum_cons, List.length_cons]
    push_cast
    linarith

/-- Helper: the recomputed rating fields satisfy the aggregation invariant
whenever all stored ratings are at least 1 (so the average of a non-empty
match set cannot be 0 and the `||` fallback never distorts it). -/
theorem calculateAverageRating_correct (reviews : List Review) (pid : Nat)
    (h : ∀ x ∈ reviews, 1 ≤ x.rating) :
    (calculateAverageRating reviews pid).ratingsQuantity
      = (nonDeletedFor reviews pid).length ∧
    (calculateAverageRating reviews pid).ratingsAverage
      = (if (nonDeletedFor reviews pid).isEmpty then 9/2
         else ((nonDeletedFor reviews pid).map Review.rating).sum /
           (nonDeletedFor reviews pid).length) := by
  unfold calculateAverageRating
  by_cases hE : (nonDeletedFor reviews pid).isEmpty
  · have hnil : nonDeletedFor reviews pid = [] := by
      cases hl : nonDeletedFor reviews pid with
      | nil => rfl
      | cons a as => rw [hl] at hE; simp at hE
    simp [hE, hnil]
  · have hmem : ∀ x ∈ nonDeletedFor reviews pid, 1 ≤ x.rating := by
      intro x hx
      exact h x (List.mem_filter.mp hx).1
    have hlen : 0 < (nonDeletedFor reviews pid).length := by
      cases hl : nonDeletedFor reviews pid with
      | nil => rw [hl] at hE; simp at hE
      | cons a as => simp [hl]
    have hsum := sum_ratings_ge_length (nonDeletedFor reviews pid) hmem
    have hlenQ : (0 : ℚ) < (nonDeletedFor reviews pid).length := by
      exact_mod_cast hlen
    have havg : 1 ≤ ((nonDeletedFor reviews pid).map Review.rating).sum /
        (nonDeletedFor reviews pid).length := by
      rw [le_div_iff₀ hlenQ]
      simpa using hsum
    have hne : ¬(((nonDeletedFor reviews pid).map Review.rating).sum /
        (nonDeletedFor reviews pid).length = 0) := by
      intro h0
      rw [h0] at havg
      linarith
    simp [hE, hne]

/-- Helper: mapped reviews all keep ratings at least 1 if the mapping does. -/
theorem mem_map_rating_ge (l : List Review) (f : Review → Review)
    (hf : ∀ x ∈ l, 1 ≤ (f x).rating) : ∀ y ∈ l.map f, 1 ≤ y.rating := by
  intro y hy
  obtain ⟨x, hx, rfl⟩ := List.mem_map.mp hy
  exact hf x hx

/-- C9 amended: after a review create, rating update, or soft delete whose
review belongs to the product, `ratingsQuantity` is the count of its
non-deleted reviews and `ratingsAverage` is their mean rounded to one
decimal by the `Math.round(val * 10) / 10` schema setter — 4.5 when none
remain (all stored ratings are in the 1 to 5 schema range, represented by
the lower bound that matters). -/
theorem review_aggregation_correct (db : ReviewDB) :
    (∀ r : Review, (∀ x ∈ db.reviews, 1 ≤ x.rating) → 1 ≤ r.rating →
      r.product = db.productId → ratingsInvariant (createReview db r)) ∧
    (∀ rid : Nat, ∀ newRating : ℚ, ∀ r0 : Review,
      (∀ x ∈ db.reviews, 1 ≤ x.rating) → 1 ≤ newRating →
      db.reviews.find? (fun x => x.id == rid) = some r0 →
      r0.product = db.productId →
      ratingsInvariant (updateReview db rid newRating)) ∧
    (∀ rid : Nat, ∀ r0 : Review,
      (∀ x ∈ db.reviews, 1 ≤ x.rating) →
      db.reviews.find? (fun x => x.id == rid) = some r0 →
      r0.product = db.productId →
      ratingsInvariant (deleteReview db rid)) := by
  refine ⟨?_, ?_, ?_⟩
  · intro r hall hr hp
    have hall2 : ∀ x ∈ db.reviews ++ [r], 1 ≤ x.rating := by
      intro x hx
      rcases List.mem_append.mp hx with h1 | h1
      · exact hall x h1
      · rw [List.mem_singleton.mp h1]; exact hr
    have hc := calculateAverageRating_correct (db.reviews ++ [r])
      db.productId hall2
    unfold ratingsInvariant createReview applyRecalc
    simp only [hp, if_pos]
    refine ⟨hc.1, ?_⟩
    have hr2 := congrArg round1 hc.2
    rw [round1_ite] at hr2
    exact hr2
  · intro rid newRating r0 hall hq hfound hp
    have hall2 := mem_map_rating_ge db.reviews
      (fun x => if x.id == rid then { x with rating := newRating } else x)
      (by
        intro x hx
        by_cases hid : (x.id == rid) = true
        · simp [hid, hq]
        · simp only [Bool.not_eq_true] at hid
          simp [hid]
          exact hall x hx)
    have hc := calculateAverageRating_correct
      (db.reviews.map
        (fun x => if x.id == rid then { x with rating := newRating } else x))
      db.productId hall2
    unfold ratingsInvariant updateReview
    rw [hfound]
    unfold applyRecalc
    simp only [hp, if_pos]
    refine ⟨hc.1, ?_⟩
    have hr2 := congrArg round1 hc.2
    rw [round1_ite] at hr2
    exact hr2
  · intro rid r0 hall hfound hp
    have hall2 := mem_map_rating_ge db.reviews
      (fun x => if x.id == rid then { x with isDeleted := true } else x)
      (by
        intro x hx
        by_cases hid : (x.id == rid) = true
        · simp [hid]
          exact hall x hx
        · simp only [Bool.not_eq_true] at hid
          simp [hid]
          exact hall x hx)
    have hc := calculateAverageRating_correct
      (db.reviews.map
        (fun x => if x.id == rid then { x with isDeleted := true } else x))
      db.productId hall2
    unfold ratingsInvariant deleteReview
    rw [hfound]
    unfold applyRecalc
    simp only [hp, if_pos]
    refine ⟨hc.1, ?_⟩
    have hr2 := congrArg round1 hc.2
    rw [round1_ite] at hr2
    exact hr2

/-- Reviews rated 5 and 3 on product 1 before the third review arrives. -/
def dbC9a : ReviewDB :=
  { reviews := [⟨1, 1, 5, false⟩, ⟨2, 1, 3, false⟩], productId := 1,
    product := ⟨0, 0⟩ }

/-- Reviews rated 5, 3, 4 on product 1, all non-deleted, with the product
carrying their aggregation. -/
def dbC9 : ReviewDB :=
  { reviews := [⟨1, 1, 5, false⟩, ⟨2, 1, 3, false⟩, ⟨3, 1, 4, false⟩],
    productId := 1, product := ⟨4, 3⟩ }

/-- Witness for C9 amended: creating the rating-4 review on top of ratings
[5, 3] yields average 4.0 and quantity 3; soft-deleting the rating-3
review from [5, 3, 4] yields average 4.5 and quantity 2 (4.0 and 4.5 are
one-decimal values, so the setter leaves these instances intact). -/
theorem review_aggregation_correct_witness :
    (createReview dbC9a ⟨3, 1, 4, false⟩).product.ratingsAverage = 4 ∧
    (createReview dbC9a ⟨3, 1, 4, false⟩).product.ratingsQuantity = 3 ∧
    (deleteReview dbC9 2).product.ratingsAverage = 9/2 ∧
    (deleteReview dbC9 2).product.ratingsQuantity = 2 := by
  have h1 := (review_aggregation_correct dbC9a).1 ⟨3, 1, 4, false⟩
    (by intro x hx; simp [dbC9a] at hx; rcases hx with rfl | rfl <;> norm_num)
    (by norm_num) rfl
  have h2 := (review_aggregation_correct dbC9).2.2 2 ⟨2, 1, 3, false⟩
    (by
      intro x hx
      simp [dbC9] at hx
      rcases hx with rfl | rfl | rfl <;> norm_num)
    rfl rfl
  obtain ⟨h1q, h1a⟩ := h1
  obtain ⟨h2q, h2a⟩ := h2
  refine ⟨?_, ?_, ?_, ?_⟩
  · rw [h1a]
    norm_num [createReview, applyRecalc, nonDeletedFor, dbC9a, round1_floor]
  · rw [h1q]
    norm_num [createReview, applyRecalc, nonDeletedFor, dbC9a, round1_floor]
  · rw [h2a]
    norm_num [deleteReview, applyRecalc, nonDeletedFor, dbC9, round1_floor]
  · rw [h2q]
    norm_num [deleteReview, applyRecalc, nonDeletedFor, dbC9, round1_floor]

/-- Reviews rated 5 and 5 on product 1 before the third review arrives. -/
def dbC9c : ReviewDB :=
  { reviews := [⟨1, 1, 5, false⟩, ⟨2, 1, 5, false⟩], productId := 1,
    product := ⟨0, 0⟩ }

/-- C9 counterexample: creating a rating-4 review on top of ratings
[5, 5] gives non-deleted ratings [5, 5, 4] with exact mean 14/3, but the
`Math.round(val * 10) / 10` schema setter makes the program store
ratingsAverage 4.7 — the stored average does not equal the mean of the
non-deleted ratings, refuting the claim as stated. -/
theorem review_aggregation_counterexample :
    (createReview dbC9c ⟨3, 1, 4, false⟩).product.ratingsQuantity = 3 ∧
    ((nonDeletedFor (createReview dbC9c ⟨3, 1, 4, false⟩).reviews 1).map
        Review.rating).sum /
      ((nonDeletedFor (createReview dbC9c ⟨3, 1, 4, false⟩).reviews 1).length)
      = 14/3 ∧
    (createReview dbC9c ⟨3, 1, 4, false⟩).product.ratingsAverage = 47/10 ∧
    (47 : ℚ)/10 ≠ 14/3 := by
  norm_num [createReview, applyRecalc, calculateAverageRating, nonDeletedFor,
    dbC9c, round1_floor]
